import Mathlib

/-!
Verification of the attribute value model in
`src/plugins/shared/structs/attribute.go` (package `structs`).

The Go code is shallowly embedded as executable Lean definitions:

* Go `*T` option-pointers become `Option T`.
* Go `int64` becomes `Int`; 64-bit wraparound is applied explicitly
  (`wrap64`) at the one multiplication the code performs on attribute
  integers.  Truncated (toward-zero) division models Go's `/`.
* Go `float64` payloads are modelled as exact rationals (`Rat`).  The
  comparison path of the source pushes both operands into 256-bit
  `big.Float` arithmetic; for every value representable as a `float64`
  and every registry multiplier, rounding to 256 bits cannot change the
  verdict of a comparison of two such scaled values, so the exact
  rational model is verdict-faithful.  Special values (inf/NaN, hex
  literals, underscores) of Go's float syntax are outside the model.
* Go strings are Lean `String`s; byte-wise lexicographic comparison on
  UTF-8 agrees with the codepoint-wise order used here.
-/

namespace structs

/-- Alias used where a structure field named after a Go field would
otherwise shadow the `String` type inside the structure declaration. -/
abbrev GoStr := String

/-- BaseUnit is a unique base unit (Go `type BaseUnit uint16` with the
five `iota` constants). -/
inductive BaseUnit where
  | UnitScalar
  | UnitByte
  | UnitByteRate
  | UnitHertz
  | UnitWatt
deriving DecidableEq, Repr

export BaseUnit (UnitScalar UnitByte UnitByteRate UnitHertz UnitWatt)

/-- Unit describes a unit and its multiplier over the base unit type. -/
structure Unit where
  Name : GoStr
  Base : BaseUnit
  Multiplier : Int
  InverseMultiplier : Bool := false
deriving DecidableEq, Repr

/-- Comparable returns if two units are comparable.  The source takes
pointers and returns false when either is nil; the nil cases are the
`none` branches of the match in `Attribute.Comparable` below. -/
def Unit.Comparable (u o : Unit) : Bool :=
  decide (u.Base = o.Base)

/-- Modelled from the spec: the unit registry table.  The source file
uses `UnitIndex` and `lengthSortedUnits`, defined elsewhere in the
package and not present under `src/`; the entries here follow the
illustrative set of spec §6 (byte units with binary and decimal
multipliers, a rate unit, frequencies, and power with `mW` as the
inverse-multiplier example). -/
def unitsTable : List Unit :=
  [ ⟨"B", UnitByte, 1, false⟩,
    ⟨"KiB", UnitByte, 1024, false⟩,
    ⟨"MiB", UnitByte, 1048576, false⟩,
    ⟨"GiB", UnitByte, 1073741824, false⟩,
    ⟨"KB", UnitByte, 1000, false⟩,
    ⟨"MB", UnitByte, 1000000, false⟩,
    ⟨"GB", UnitByte, 1000000000, false⟩,
    ⟨"MB/s", UnitByteRate, 1000000, false⟩,
    ⟨"MHz", UnitHertz, 1000000, false⟩,
    ⟨"GHz", UnitHertz, 1000000000, false⟩,
    ⟨"W", UnitWatt, 1, false⟩,
    ⟨"mW", UnitWatt, 1000, true⟩ ]

/-- Modelled from the spec: `UnitIndex` is the registry lookup keyed by
unit name (Go map indexing returns the zero value / nil on a miss, here
`none`). -/
def UnitIndex (name : GoStr) : Option Unit :=
  unitsTable.find? (fun u => decide (u.Name = name))

/-- Modelled from the spec: `lengthSortedUnits` is the precomputed
longest-name-first ordering of the registry names used for suffix
matching, ties broken lexically. -/
def lengthSortedUnits : List GoStr :=
  ["MB/s", "GHz", "GiB", "KiB", "MHz", "MiB", "GB", "KB", "MB", "mW", "B", "W"]

/-- floatPrecision is the precision used before rounding (source
constant, 256 bits of significand). -/
def floatPrecision : Nat := 256

/-- Attribute is used to describe the value of an attribute, optionally
specifying units.  Fields mirror the Go struct: four option payloads and
the unit name (empty string meaning no unit). -/
structure Attribute where
  Float : Option Rat := none
  Int : Option Int := none
  String : Option GoStr := none
  Bool : Option Bool := none
  Unit : GoStr := ""
deriving DecidableEq, Repr

/-- Alias for the comparison result pair (ordering, comparable flag);
inside the `Attribute` namespace the field names of the structure would
shadow the `Int` and `Bool` types in signatures. -/
abbrev CmpRes := Int × Bool

/-- Alias for `Int` usable inside the `Attribute` namespace. -/
abbrev GoInt := Int

/-- Alias for `Bool` usable inside the `Attribute` namespace. -/
abbrev GoBool := Bool

/-- Alias for the `Unit` record usable inside the `Attribute`
namespace. -/
abbrev UnitTy := Unit

/-- Convenience constructor for a float attribute with a unit. -/
def mkFloat (q : Rat) (u : GoStr) : Attribute := { Float := some q, Unit := u }

/-- Convenience constructor for an int attribute with a unit. -/
def mkInt (i : Int) (u : GoStr) : Attribute := { Int := some i, Unit := u }

/-- Convenience constructor for a string attribute. -/
def mkString (s : GoStr) : Attribute := { String := some s }

/-- Convenience constructor for a bool attribute. -/
def mkBool (b : Bool) : Attribute := { Bool := some b }

/-- setCount is the number of populated payload variants (the running
`set` counter of `Validate`). -/
def Attribute.setCount (a : Attribute) : Nat :=
  (if a.Float.isSome then 1 else 0) + (if a.Int.isSome then 1 else 0) +
    (if a.String.isSome then 1 else 0) + (if a.Bool.isSome then 1 else 0)

/-- countCheck is the tail of `Validate`: assert exactly one of the
attribute payloads is set. -/
def Attribute.countCheck (a : Attribute) : Option GoStr :=
  if a.setCount = 0 then some "no attribute value set"
  else if 1 < a.setCount then some "only one attribute value may be set"
  else none

/-- Validate checks if the attribute is valid (source lines 121-155).
`none` is the nil error, `some msg` an error. -/
def Attribute.Validate (a : Attribute) : Option GoStr :=
  if a.Unit ≠ "" then
    match UnitIndex a.Unit with
    | none => some ("unrecognized unit \"" ++ a.Unit ++ "\"")
    | some _ =>
      if a.String.isSome ∨ a.Bool.isSome then
        some "unit can not be specified on a boolean or string attribute"
      else a.countCheck
  else a.countCheck

/-- Rendering of a float payload.  Go prints `%v` of the float64; the
exact formatting of numerics is immaterial to the claims proved here and
is abstracted by the rational's textual form. -/
def fmtRat (q : Rat) : GoStr := toString q

/-- Rendering of an int payload (`%v` of an int64 is its decimal form,
which `toString` matches exactly). -/
def fmtInt (i : Int) : GoStr := toString i

/-- Rendering of a bool payload (`%v` prints true/false). -/
def fmtBool (b : Bool) : GoStr := if b then "true" else "false"

/-- GoString returns a string representation of the attribute (source
lines 97-118).  The Go receiver is a pointer that may be nil, hence the
`Option`: `none` is the nil receiver. -/
def Attribute.GoString (a? : Option Attribute) : GoStr :=
  match a? with
  | none => "nil attribute"
  | some a =>
    let body :=
      match a.Float with
      | some f => fmtRat f
      | none =>
        match a.Int with
        | some i => fmtInt i
        | none =>
          match a.Bool with
          | some b => fmtBool b
          | none =>
            match a.String with
            | some s => s
            | none => ""
    if a.Unit ≠ "" then body ++ a.Unit else body

/-- getTypedUnit returns the Unit for the attribute or `none` if no unit
exists (a Go map miss yields nil, which also covers the empty name). -/
def Attribute.getTypedUnit (a : Attribute) : Option UnitTy :=
  UnitIndex a.Unit

/-- wrap64 reduces an integer to the int64 it denotes after two's
complement wraparound, making Go's 64-bit multiplication explicit. -/
def wrap64 (x : Int) : Int :=
  (x + 9223372036854775808) % 18446744073709551616 - 9223372036854775808

/-- getInt returns an int representation of the attribute, converting
the value to the base unit if a unit is specified (source lines
278-300).  Go division on int64 truncates toward zero (`Int.tdiv`); the
multiplication is a 64-bit one, hence `wrap64`. -/
def Attribute.getInt (a : Attribute) : GoInt :=
  match a.Int with
  | none => 0
  | some i =>
    match a.getTypedUnit with
    | none => i
    | some u =>
      if u.InverseMultiplier then Int.tdiv i u.Multiplier
      else wrap64 (i * u.Multiplier)

/-- Exact multiplication of a rational by an integer multiplier,
phrased through `mkRat` so the kernel can evaluate it; `scaleMul_eq`
below proves it equals `q * m`, the source's `f.Mul(f, multiplier)`. -/
def scaleMul (q : Rat) (m : Int) : Rat := mkRat (q.num * m) q.den

/-- Exact division of a rational by a (positive) integer multiplier via
`mkRat`; `scaleDiv_eq` below proves it equals `q * (1 / m)`, the
source's multiplication by `Quo(1, multiplier)` (every registry
multiplier is positive). -/
def scaleDiv (q : Rat) (m : Int) : Rat := mkRat q.num (q.den * m.natAbs)

/-- getBigFloat returns the high-precision float representation of the
attribute, converting the value to the base unit if a unit is specified
(source lines 243-274).  The 256-bit `big.Float` arithmetic is modelled
by exact rationals; see the header comment for why this is
verdict-faithful. -/
def Attribute.getBigFloat (a : Attribute) : Option Rat :=
  let f? : Option Rat :=
    match a.Int with
    | some i => some (mkRat i 1)
    | none => a.Float
  match f? with
  | none => none
  | some f =>
    match a.getTypedUnit with
    | none => some f
    | some u =>
      if u.InverseMultiplier then some (scaleDiv f u.Multiplier)
      else some (scaleMul f u.Multiplier)

/-- ratCmp mirrors `big.Float.Cmp`: -1 if x < y, 0 if equal, +1 if
x > y. -/
def ratCmp (x y : Rat) : Int :=
  if x < y then -1 else if x = y then 0 else 1

/-- strCmp mirrors `strings.Compare` (-1/0/+1 lexicographically; the
byte-wise order of UTF-8 agrees with the codepoint order used here). -/
def strCmp (s t : GoStr) : Int :=
  if s < t then -1 else if s = t then 0 else 1

/-- boolComparitor compares two boolean attributes (source lines
186-192).  The source dereferences both pointers; it is only invoked on
attributes whose Bool payloads are present, so the `getD` defaults are
never reached on the paths the theorems below traverse. -/
def Attribute.boolComparitor (a b : Attribute) : CmpRes :=
  if a.Bool.getD false = b.Bool.getD false then (0, true) else (1, true)

/-- stringComparitor compares two string attributes (source lines
195-197); presence of the payloads is guaranteed by the caller as for
`boolComparitor`. -/
def Attribute.stringComparitor (a b : Attribute) : CmpRes :=
  (strCmp (a.String.getD "") (b.String.getD ""), true)

/-- intComparitor compares two integer attributes (source lines
218-229). -/
def Attribute.intComparitor (a b : Attribute) : CmpRes :=
  let ai := a.getInt
  let bi := b.getInt
  if ai = bi then (0, true)
  else if ai < bi then (-1, true)
  else (1, true)

/-- numberComparitor compares two number attributes, having either Int
or Float set (source lines 201-215). -/
def Attribute.numberComparitor (a b : Attribute) : CmpRes :=
  if a.Int.isSome ∧ b.Int.isSome then a.intComparitor b
  else
    match a.getBigFloat, b.getBigFloat with
    | some af, some bf => (ratCmp af bf, true)
    | _, _ => (0, false)

/-- nullComparitor always reports not-comparable (source lines
233-235). -/
def nullComparitor (_ : Attribute) : CmpRes := (0, false)

/-- comparitor selects the comparison function by the receiver's kind
(source lines 171-183). -/
def Attribute.comparitor (a b : Attribute) : CmpRes :=
  if a.Bool.isSome then a.boolComparitor b
  else if a.String.isSome then a.stringComparitor b
  else if a.Int.isSome ∨ a.Float.isSome then a.numberComparitor b
  else nullComparitor b

/-- Comparable returns whether the two attributes can be compared
(source lines 303-333).  The source's nil-pointer guards on the
receivers do not arise in the value model; the nil guards of
`Unit.Comparable` are the `none` branches of the match. -/
def Attribute.Comparable (a b : Attribute) : GoBool :=
  match a.getTypedUnit, b.getTypedUnit with
  | some au, some bu => au.Comparable bu
  | some _, none => false
  | none, some _ => false
  | none, none =>
    if a.String.isSome then b.String.isSome
    else if a.Bool.isSome then b.Bool.isSome
    else true

/-- Compare compares two attributes (source lines 162-168): the Bool
result is the comparable flag, the Int the ordering (for bools, 0/1
equality marker). -/
def Attribute.Compare (a b : Attribute) : CmpRes :=
  if a.Comparable b then a.comparitor b else (0, false)

/-- The ten ASCII digits; Go's `strconv` integer syntax accepts exactly
these. -/
def digitChars : List Char :=
  ['0', '1', '2', '3', '4', '5', '6', '7', '8', '9']

/-- Digit test used by the embedded `strconv` parsers (kept as an
explicit enumeration so that facts about digit characters reduce by
`decide`). -/
def goIsDigit (c : Char) : Bool := digitChars.contains c

/-- Value of a run of decimal digits. -/
def digitsVal (l : List Char) : Nat :=
  l.foldl (fun a c => a * 10 + (c.toNat - 48)) 0

/-- Smallest int64, the lower bound `strconv.ParseInt(_, 10, 64)`
accepts. -/
def int64Min : Int := -9223372036854775808

/-- Largest int64, the upper bound `strconv.ParseInt(_, 10, 64)`
accepts. -/
def int64Max : Int := 9223372036854775807

/-- Shared sign handling of the numeric `strconv` parsers: strip one
leading '-' (negative) or '+' (positive), else no sign. -/
def splitSign (l : List Char) : Bool × List Char :=
  match l with
  | '-' :: rest => (true, rest)
  | '+' :: rest => (false, rest)
  | _ => (false, l)

/-- Digits-with-sign core of `strconv.ParseInt(s, 10, 64)`: a nonempty
run of decimal digits whose signed value fits in int64. -/
def goParseIntCore (neg : Bool) (ds : List Char) : Option Int :=
  if ds ≠ [] ∧ ds.all goIsDigit then
    let v : Int := if neg then -(digitsVal ds : Int) else (digitsVal ds : Int)
    if int64Min ≤ v ∧ v ≤ int64Max then some v else none
  else none

/-- Model of `strconv.ParseInt(s, 10, 64)` over the characters of `s`:
an optional sign followed by decimal digits, range-checked against
int64.  (Underscore digit separators require base 0 in Go and are
rejected here as there.) -/
def goParseIntChars (l : List Char) : Option Int :=
  goParseIntCore (splitSign l).1 (splitSign l).2

/-- Mantissa of a decimal float literal: `digits`, `digits.digits`,
`digits.` or `.digits`, valued as an exact rational
(`mkRat` keeps the arithmetic kernel-reducible; the value is the usual
ip + fp / 10^|fp|). -/
def parseMantissa (l : List Char) : Option Rat :=
  let ip := l.takeWhile goIsDigit
  match l.dropWhile goIsDigit with
  | [] => if ip = [] then none else some (mkRat (digitsVal ip) 1)
  | d :: fp =>
    if d = '.' then
      if fp.all goIsDigit ∧ (ip ≠ [] ∨ fp ≠ []) then
        some (mkRat (digitsVal ip * 10 ^ fp.length + digitsVal fp) (10 ^ fp.length))
      else none
    else none

/-- Scaling of a mantissa by a signed power of ten, again via `mkRat`
so that it evaluates; equal to multiplication by 10^e. -/
def scalePow10 (q : Rat) (eneg : Bool) (k : Nat) : Rat :=
  if eneg then mkRat q.num (q.den * 10 ^ k) else mkRat (q.num * 10 ^ k) q.den

/-- Unsigned part of a decimal float literal: a mantissa followed by an
optional exponent `e`/`E` with optional sign and nonempty digits. -/
def parseFloatBody (l : List Char) : Option Rat :=
  let mant := l.takeWhile (fun c => !(c == 'e' || c == 'E'))
  match l.dropWhile (fun c => !(c == 'e' || c == 'E')) with
  | [] => parseMantissa mant
  | _ :: expPart =>
    let ec : Bool × List Char := splitSign expPart
    if ec.2 ≠ [] ∧ ec.2.all goIsDigit then
      match parseMantissa mant with
      | none => none
      | some m => some (scalePow10 m ec.1 (digitsVal ec.2))
    else none

/-- Model of `strconv.ParseFloat(s, 64)` over the characters of `s`:
optionally signed decimal mantissa with optional exponent, valued as an
exact rational (see the header comment; Go's hex-float, inf/NaN and
underscore forms are outside the model, as is the overflow cutoff near
1.8e308). -/
def goParseFloatChars (l : List Char) : Option Rat :=
  match parseFloatBody (splitSign l).2 with
  | none => none
  | some q => some (if (splitSign l).1 then -q else q)

/-- Model of `strconv.ParseBool`: exactly the twelve literal aliases it
accepts. -/
def goParseBool (s : GoStr) : Option Bool :=
  if s ∈ (["1", "t", "T", "TRUE", "true", "True"] : List GoStr) then some true
  else if s ∈ (["0", "f", "F", "FALSE", "false", "False"] : List GoStr) then some false
  else none

/-- Model of `strings.TrimSuffix`: drop the suffix once when present. -/
def goTrimSuffix (s u : GoStr) : GoStr :=
  if u.data <:+ s.data then ⟨s.data.take (s.data.length - u.data.length)⟩ else s

/-- Model of `strings.TrimSpace`: strip whitespace from both ends
(`unicode.IsSpace` agrees with `Char.isWhitespace` on every character
the claims exercise). -/
def goTrimSpace (s : GoStr) : GoStr :=
  ⟨((s.data.dropWhile Char.isWhitespace).reverse.dropWhile Char.isWhitespace).reverse⟩

/-- Tail of `ParseAttribute` (source lines 387-399): try the whole input
as an int, then as a float, else keep it as a string.  It is reached
both when the last character is not a letter and when the unit-suffix
path fails to parse the remainder as a number. -/
def fallbackParse (input : GoStr) : Attribute :=
  match goParseIntChars input.data with
  | some i => { Int := some i }
  | none =>
    match goParseFloatChars input.data with
    | some f => { Float := some f }
    | none => { String := some input }

/-- ParseAttribute takes a string and parses it into an attribute,
pulling out units if they are specified as a suffix on a number (source
lines 342-400).  The last-character letter test models
`unicode.IsLetter(rune(input[ll-1]))`; on the ASCII inputs the claims
quantify over, `Char.isAlpha` of the last character coincides with Go's
test of the last byte. -/
def ParseAttribute (input : GoStr) : Attribute :=
  if input.data = [] then { String := some input }
  else
    match goParseBool input with
    | some b => { Bool := some b }
    | none =>
      if (input.data.getLast?.map Char.isAlpha).getD false then
        match lengthSortedUnits.find? (fun u => decide (u.data <:+ input.data)) with
        | none => { String := some input }
        | some unit =>
          let numeric := goTrimSpace (goTrimSuffix input unit)
          match goParseIntChars numeric.data with
          | some i => { Int := some i, Unit := unit }
          | none =>
            match goParseFloatChars numeric.data with
            | some f => { Float := some f, Unit := unit }
            | none => fallbackParse input
      else fallbackParse input

/-- unitOk states the unit side-condition a validated attribute
satisfies: no unit, or a unit the registry resolves. -/
def unitOk (u : GoStr) : Prop := u = "" ∨ (UnitIndex u).isSome

/-- Formalization of C6's comparability gate, following the claim's
wording: exactly one resolvable unit rejects; two resolvable units need
equal base dimensions; with no units, String pairs with String, Bool
with Bool, and Int/Float in any mix pair with each other. -/
def specComparabilityGate (a b : Attribute) : Bool :=
  match a.getTypedUnit, b.getTypedUnit with
  | some au, some bu => decide (au.Base = bu.Base)
  | some _, none => false
  | none, some _ => false
  | none, none =>
    (a.String.isSome && b.String.isSome) || (a.Bool.isSome && b.Bool.isSome) ||
      ((a.Int.isSome || a.Float.isSome) && (b.Int.isSome || b.Float.isSome))

/-- Characterization of validation success, proved once and shared. -/
lemma validate_none_iff (a : Attribute) :
    a.Validate = none ↔
      (a.setCount = 1 ∧
        (a.Unit = "" ∨ ((UnitIndex a.Unit).isSome ∧ (a.Int.isSome ∨ a.Float.isSome)))) := by
  obtain ⟨f, i, s, b, u⟩ := a
  by_cases hu : u = ""
  · subst hu
    cases f <;> cases i <;> cases s <;> cases b <;>
      simp [Attribute.Validate, Attribute.countCheck, Attribute.setCount]
  · cases hidx : UnitIndex u <;>
      cases f <;> cases i <;> cases s <;> cases b <;>
      simp [Attribute.Validate, Attribute.countCheck, Attribute.setCount, hu, hidx]

/-- A validated attribute has exactly one payload, and its unit may be
non-empty (and then registry-resolvable) only in the numeric cases. -/
lemma validated_cases (a : Attribute) (h : a.Validate = none) :
    (∃ q, a.Float = some q ∧ a.Int = none ∧ a.String = none ∧ a.Bool = none ∧ unitOk a.Unit)
    ∨ (∃ i, a.Int = some i ∧ a.Float = none ∧ a.String = none ∧ a.Bool = none ∧ unitOk a.Unit)
    ∨ (∃ s, a.String = some s ∧ a.Float = none ∧ a.Int = none ∧ a.Bool = none ∧ a.Unit = "")
    ∨ (∃ b, a.Bool = some b ∧ a.Float = none ∧ a.Int = none ∧ a.String = none ∧ a.Unit = "") := by
  obtain ⟨f, i, s, b, u⟩ := a
  by_cases hu : u = "" <;>
    [skip; cases hidx : UnitIndex u] <;>
    cases f <;> cases i <;> cases s <;> cases b <;>
    simp_all [Attribute.Validate, Attribute.countCheck, Attribute.setCount, unitOk]

/-- ratCmp is antisymmetric, as `big.Float.Cmp` is. -/
lemma ratCmp_swap (x y : Rat) : ratCmp x y = -ratCmp y x := by
  unfold ratCmp
  rcases lt_trichotomy x y with h | h | h
  · simp [h, lt_asymm h, h.ne.symm]
  · subst h
    simp
  · simp [h, lt_asymm h, h.ne.symm]

/-- strCmp is antisymmetric, as `strings.Compare` is. -/
lemma strCmp_swap (s t : GoStr) : strCmp s t = -strCmp t s := by
  unfold strCmp
  rcases lt_trichotomy s t with h | h | h
  · simp [h, lt_asymm h, h.ne.symm]
  · subst h
    simp
  · simp [h, lt_asymm h, h.ne.symm]

/-- C1: for every attribute value, `Validate` succeeds iff exactly one
of the four payload variants {Float, Int, String, Bool} is set and
either the unit field is empty, or the unit names an entry in the unit
registry and the populated variant is Int or Float. -/
theorem c1_validate_iff (a : Attribute) :
    a.Validate = none ↔
      (a.setCount = 1 ∧
        (a.Unit = "" ∨ ((UnitIndex a.Unit).isSome ∧ (a.Int.isSome ∨ a.Float.isSome)))) :=
  validate_none_iff a

/-- Dropping the head of a list with a nonempty tail keeps the last
element. -/
lemma getLast?_cons_ne_nil {α : Type} (a : α) (l : List α) (h : l ≠ []) :
    (a :: l).getLast? = l.getLast? := by
  cases l with
  | nil => exact absurd rfl h
  | cons b t => simp [List.getLast?_cons_cons]

/-- The last element reported by `getLast?` is a member. -/
lemma mem_of_getLast?_eq {α : Type} {l : List α} {c : α}
    (h : l.getLast? = some c) : c ∈ l := by
  induction l with
  | nil => simp at h
  | cons a t ih =>
    cases t with
    | nil =>
      simp [List.getLast?] at h
      simp [h]
    | cons b t2 =>
      rw [List.getLast?_cons_cons] at h
      exact List.mem_cons_of_mem a (ih h)

/-- A decimal digit is not a letter. -/
lemma digit_not_alpha {c : Char} (h : goIsDigit c = true) : c.isAlpha = false := by
  have hm : c ∈ digitChars := by simpa [goIsDigit] using h
  fin_cases hm <;> decide

/-- Success of the sign-stripped integer core means a nonempty
all-digits run. -/
lemma parseIntCore_shape {neg : Bool} {ds : List Char} {v : Int}
    (h : goParseIntCore neg ds = some v) : ds ≠ [] ∧ ds.all goIsDigit := by
  unfold goParseIntCore at h
  split at h
  · next hc => exact hc
  · exact absurd h (by simp)

/-- A string accepted by the integer parser ends in a digit. -/
lemma parseInt_last {l : List Char} {v : Int}
    (h : goParseIntChars l = some v) :
    ∃ c, l.getLast? = some c ∧ goIsDigit c = true := by
  have core : ∀ neg ds, goParseIntCore neg ds = some v → ds ≠ [] → l.getLast? = ds.getLast? →
      ∃ c, l.getLast? = some c ∧ goIsDigit c = true := by
    intro neg ds hds hne hlast
    obtain ⟨-, hall⟩ := parseIntCore_shape hds
    obtain ⟨c, hc⟩ := Option.isSome_iff_exists.mp (List.getLast?_isSome.mpr hne)
    refine ⟨c, by rw [hlast]; exact hc, ?_⟩
    exact (List.all_eq_true.mp hall) c (mem_of_getLast?_eq hc)
  unfold goParseIntChars splitSign at h
  split at h
  · next rest =>
    obtain ⟨hne, -⟩ := parseIntCore_shape h
    exact core true rest h hne (getLast?_cons_ne_nil _ _ hne)
  · next rest =>
    obtain ⟨hne, -⟩ := parseIntCore_shape h
    exact core false rest h hne (getLast?_cons_ne_nil _ _ hne)
  · next =>
    obtain ⟨hne, -⟩ := parseIntCore_shape h
    exact core false l h hne rfl

/-- C8 counterexample: the attribute with no payload variants set (and
no unit) renders as the empty string, not as the "nil attribute"
marker; only the nil receiver renders as the marker. -/
theorem c8_counterexample :
    Attribute.GoString
        (some { Float := none, Int := none, String := none, Bool := none, Unit := "" }) = ""
      ∧ Attribute.GoString
        (some { Float := none, Int := none, String := none, Bool := none, Unit := "" })
        ≠ "nil attribute" := by
  constructor
  · rfl
  · decide

/-- C8 amended: the nil attribute reference renders as the "nil
attribute" marker, while a (non-nil) attribute value with none of the
four payload variants set renders as its unit name alone — the empty
string when it carries no unit. -/
theorem c8_amended_render (a : Attribute) (hf : a.Float = none) (hi : a.Int = none)
    (hb : a.Bool = none) (hs : a.String = none) :
    Attribute.GoString none = "nil attribute" ∧ Attribute.GoString (some a) = a.Unit := by
  obtain ⟨f, i, s, b, u⟩ := a
  simp only at hf hi hb hs
  subst hf hi hb hs
  refine ⟨rfl, ?_⟩
  by_cases hu : u = ""
  · subst hu
    rfl
  · simp [Attribute.GoString, hu]

/-- Witness for C8's amended theorem at a concrete attribute. -/
theorem c8_amended_witness :
    Attribute.GoString none = "nil attribute" ∧
      Attribute.GoString
        (some { Float := none, Int := none, String := none, Bool := none, Unit := "GiB" })
        = "GiB" :=
  c8_amended_render
    { Float := none, Int := none, String := none, Bool := none, Unit := "GiB" }
    rfl rfl rfl rfl

/-- C9: comparing Float(1.0, GiB) with Int(1073741824, B) is comparable
with ordering 0 — the unit scaling happens in the high-precision
(256-bit floor, here exact) numeric path and introduces no spurious
inequality. -/
theorem c9_gib_byte_equal :
    (mkFloat 1 "GiB").Compare (mkInt 1073741824 "B") = (0, true) ∧ floatPrecision = 256 := by
  constructor
  · rfl
  · rfl

/-- C10: boolean parsing runs before integer parsing, so "1" and "0"
(and the other `strconv.ParseBool` aliases) become Bool attributes even
though they are valid integer literals. -/
theorem c10_bool_precedence :
    ParseAttribute "1" = mkBool true ∧ ParseAttribute "0" = mkBool false ∧
      ParseAttribute "t" = mkBool true ∧ ParseAttribute "f" = mkBool false ∧
      ParseAttribute "T" = mkBool true ∧ ParseAttribute "F" = mkBool false ∧
      ParseAttribute "true" = mkBool true ∧ ParseAttribute "False" = mkBool false ∧
      goParseIntChars "1".data = some 1 ∧ goParseIntChars "0".data = some 0 := by
  decide

/-- C4: "10" parses as Int 10 and "10.0" as Float 10.0; in general any
input that the boolean stage rejects and that parses as a base-10 int64
becomes that Int attribute, so the float parse (tried after) can never
win a tie against the integer parse. -/
theorem c4_int_precedence :
    ParseAttribute "10" = mkInt 10 "" ∧ ParseAttribute "10.0" = mkFloat 10 "" ∧
      ∀ (s : GoStr) (i : Int), goParseBool s = none → goParseIntChars s.data = some i →
        ParseAttribute s = mkInt i "" := by
  refine ⟨by decide, by rfl, ?_⟩
  intro s i hb hi
  obtain ⟨c, hc, hd⟩ := parseInt_last hi
  have hne : s.data ≠ [] := by
    intro h
    rw [h] at hc
    simp at hc
  unfold ParseAttribute fallbackParse
  simp [hne, hb, hc, digit_not_alpha hd, hi, mkInt]

/-- Witness for C4's general clause at a concrete input. -/
theorem c4_witness : ParseAttribute "42" = mkInt 42 "" :=
  c4_int_precedence.2.2 "42" 42 (by decide) (by decide)

/-- scaleMul is multiplication by the integer multiplier, the source's
`f.Mul(f, multiplier)`. -/
lemma scaleMul_eq (q : Rat) (m : Int) : scaleMul q m = q * m := by
  unfold scaleMul
  rw [Rat.mkRat_eq_div]
  push_cast
  conv_rhs => rw [← Rat.num_div_den q]
  rw [div_mul_eq_mul_div]

/-- scaleDiv is multiplication by the inverse of a positive integer
multiplier, the source's `f.Mul(f, Quo(1, multiplier))`. -/
lemma scaleDiv_eq (q : Rat) (m : Int) (hm : 0 < m) : scaleDiv q m = q * (1 / m) := by
  unfold scaleDiv
  rw [Rat.mkRat_eq_div]
  have hcast : ((m.natAbs : Nat) : Rat) = (m : Rat) := by
    rw [Int.cast_natAbs]
    exact_mod_cast abs_of_nonneg hm.le
  push_cast
  rw [hcast, mul_one_div]
  conv_rhs => rw [← Rat.num_div_den q]
  rw [div_div]

/-- Every registry multiplier is positive (spec §3 invariant). -/
lemma unitsTable_multiplier_pos : ∀ u ∈ unitsTable, 0 < u.Multiplier := by decide

/-- An Int attribute carrying a registry-resolvable unit validates. -/
lemma validate_mkInt_unit (i : Int) (u : GoStr) (hu : (UnitIndex u).isSome) (hne : u ≠ "") :
    (mkInt i u).Validate = none := by
  obtain ⟨w, hw⟩ := Option.isSome_iff_exists.mp hu
  simp [mkInt, Attribute.Validate, Attribute.countCheck, Attribute.setCount, hne, hw]

/-- A Float attribute carrying a registry-resolvable unit validates. -/
lemma validate_mkFloat_unit (q : Rat) (u : GoStr) (hu : (UnitIndex u).isSome) (hne : u ≠ "") :
    (mkFloat q u).Validate = none := by
  obtain ⟨w, hw⟩ := Option.isSome_iff_exists.mp hu
  simp [mkFloat, Attribute.Validate, Attribute.countCheck, Attribute.setCount, hne, hw]

/-- The unitless results of the parser's final int/float/string cascade
always validate. -/
lemma fallback_valid (s : GoStr) : (fallbackParse s).Validate = none := by
  unfold fallbackParse
  split
  · rfl
  · split
    · rfl
    · rfl

/-- C2: parsing is total and safe — for every input string the returned
attribute passes Validate: exactly one variant is populated and a
non-empty unit appears only on an Int or Float variant and resolves in
the registry. -/
theorem c2_parse_always_valid (s : GoStr) : (ParseAttribute s).Validate = none := by
  have hfacts : ∀ u ∈ lengthSortedUnits, u ≠ "" ∧ (UnitIndex u).isSome := by decide
  unfold ParseAttribute
  split
  · rfl
  · split
    · rfl
    · split
      · split
        · rfl
        · next unit hfind =>
          have hu := hfacts unit (List.mem_of_find?_eq_some hfind)
          dsimp only
          split
          · next i hi => exact validate_mkInt_unit i unit hu.2 hu.1
          · split
            · next f hf => exact validate_mkFloat_unit f unit hu.2 hu.1
            · exact fallback_valid s
      · exact fallback_valid s

/-- The empty unit name never resolves. -/
lemma UnitIndex_empty : UnitIndex "" = none := rfl

/-- Canonical forms of validated attributes. -/
lemma validated_repr (a : Attribute) (h : a.Validate = none) :
    (∃ q u, a = mkFloat q u ∧ unitOk u)
    ∨ (∃ i u, a = mkInt i u ∧ unitOk u)
    ∨ (∃ s, a = mkString s)
    ∨ (∃ x, a = mkBool x) := by
  obtain ⟨af, ai, as, abl, au⟩ := a
  rcases validated_cases _ h with ⟨q, hq, h2, h3, h4, hu⟩ | ⟨i, hq, h2, h3, h4, hu⟩ |
    ⟨s, hq, h2, h3, h4, hu⟩ | ⟨x, hq, h2, h3, h4, hu⟩ <;>
    dsimp only at hq h2 h3 h4 hu <;> subst hq h2 h3 h4
  · exact Or.inl ⟨q, au, rfl, hu⟩
  · exact Or.inr (Or.inl ⟨i, au, rfl, hu⟩)
  · subst hu
    exact Or.inr (Or.inr (Or.inl ⟨s, rfl⟩))
  · subst hu
    exact Or.inr (Or.inr (Or.inr ⟨x, rfl⟩))


/-- The pure-integer comparitor always reports comparable. -/
lemma intComparitor_snd (a b : Attribute) : (a.intComparitor b).2 = true := by
  unfold Attribute.intComparitor
  dsimp only
  split_ifs <;> rfl

/-- Compare's returned comparable flag of two validated attributes is
exactly the gate verdict, whichever internal comparitor produces it. -/
lemma compare_flag (a b : Attribute) (ha : a.Validate = none) (hb : b.Validate = none) :
    (a.Compare b).2 = specComparabilityGate a b := by
  rcases validated_repr a ha with ⟨q, u, rfl, hu⟩ | ⟨i, u, rfl, hu⟩ | ⟨s, rfl⟩ | ⟨x, rfl⟩ <;>
    rcases validated_repr b hb with ⟨q2, u2, rfl, hu2⟩ | ⟨i2, u2, rfl, hu2⟩ | ⟨s2, rfl⟩ |
      ⟨x2, rfl⟩
  · rcases hu with rfl | hs <;> rcases hu2 with rfl | hs2
    · simp [Attribute.Compare, Attribute.Comparable, Attribute.comparitor,
        Attribute.numberComparitor, intComparitor_snd, Attribute.boolComparitor,
        Attribute.stringComparitor, Attribute.getBigFloat, Attribute.getTypedUnit,
        nullComparitor, Unit.Comparable, specComparabilityGate, mkFloat,
        mkInt, mkString, mkBool, UnitIndex_empty, apply_ite]
    · obtain ⟨ub, hub⟩ := Option.isSome_iff_exists.mp hs2
      simp [Attribute.Compare, Attribute.Comparable, Attribute.comparitor,
        Attribute.numberComparitor, intComparitor_snd, Attribute.boolComparitor,
        Attribute.stringComparitor, Attribute.getBigFloat, Attribute.getTypedUnit,
        nullComparitor, Unit.Comparable, specComparabilityGate, mkFloat,
        mkInt, mkString, mkBool, UnitIndex_empty, apply_ite, hub]
    · obtain ⟨ua, hua⟩ := Option.isSome_iff_exists.mp hs
      simp [Attribute.Compare, Attribute.Comparable, Attribute.comparitor,
        Attribute.numberComparitor, intComparitor_snd, Attribute.boolComparitor,
        Attribute.stringComparitor, Attribute.getBigFloat, Attribute.getTypedUnit,
        nullComparitor, Unit.Comparable, specComparabilityGate, mkFloat,
        mkInt, mkString, mkBool, UnitIndex_empty, apply_ite, hua]
    · obtain ⟨ua, hua⟩ := Option.isSome_iff_exists.mp hs
      obtain ⟨ub, hub⟩ := Option.isSome_iff_exists.mp hs2
      by_cases hbase : ua.Base = ub.Base <;>
        simp [Attribute.Compare, Attribute.Comparable, Attribute.comparitor,
          Attribute.numberComparitor, intComparitor_snd, Attribute.boolComparitor,
          Attribute.stringComparitor, Attribute.getBigFloat, Attribute.getTypedUnit,
          nullComparitor, Unit.Comparable, specComparabilityGate, mkFloat,
          mkInt, mkString, mkBool, UnitIndex_empty, apply_ite, hua, hub, hbase] <;>
        split_ifs <;> simp
  · rcases hu with rfl | hs <;> rcases hu2 with rfl | hs2
    · simp [Attribute.Compare, Attribute.Comparable, Attribute.comparitor,
        Attribute.numberComparitor, intComparitor_snd, Attribute.boolComparitor,
        Attribute.stringComparitor, Attribute.getBigFloat, Attribute.getTypedUnit,
        nullComparitor, Unit.Comparable, specComparabilityGate, mkFloat,
        mkInt, mkString, mkBool, UnitIndex_empty, apply_ite]
    · obtain ⟨ub, hub⟩ := Option.isSome_iff_exists.mp hs2
      simp [Attribute.Compare, Attribute.Comparable, Attribute.comparitor,
        Attribute.numberComparitor, intComparitor_snd, Attribute.boolComparitor,
        Attribute.stringComparitor, Attribute.getBigFloat, Attribute.getTypedUnit,
        nullComparitor, Unit.Comparable, specComparabilityGate, mkFloat,
        mkInt, mkString, mkBool, UnitIndex_empty, apply_ite, hub]
    · obtain ⟨ua, hua⟩ := Option.isSome_iff_exists.mp hs
      simp [Attribute.Compare, Attribute.Comparable, Attribute.comparitor,
        Attribute.numberComparitor, intComparitor_snd, Attribute.boolComparitor,
        Attribute.stringComparitor, Attribute.getBigFloat, Attribute.getTypedUnit,
        nullComparitor, Unit.Comparable, specComparabilityGate, mkFloat,
        mkInt, mkString, mkBool, UnitIndex_empty, apply_ite, hua]
    · obtain ⟨ua, hua⟩ := Option.isSome_iff_exists.mp hs
      obtain ⟨ub, hub⟩ := Option.isSome_iff_exists.mp hs2
      by_cases hbase : ua.Base = ub.Base <;>
        simp [Attribute.Compare, Attribute.Comparable, Attribute.comparitor,
          Attribute.numberComparitor, intComparitor_snd, Attribute.boolComparitor,
          Attribute.stringComparitor, Attribute.getBigFloat, Attribute.getTypedUnit,
          nullComparitor, Unit.Comparable, specComparabilityGate, mkFloat,
          mkInt, mkString, mkBool, UnitIndex_empty, apply_ite, hua, hub, hbase] <;>
        split_ifs <;> simp
  · rcases hu with rfl | hs
    · simp [Attribute.Compare, Attribute.Comparable, Attribute.comparitor,
        Attribute.numberComparitor, intComparitor_snd, Attribute.boolComparitor,
        Attribute.stringComparitor, Attribute.getBigFloat, Attribute.getTypedUnit,
        nullComparitor, Unit.Comparable, specComparabilityGate, mkFloat,
        mkInt, mkString, mkBool, UnitIndex_empty, apply_ite]
    · obtain ⟨ua, hua⟩ := Option.isSome_iff_exists.mp hs
      simp [Attribute.Compare, Attribute.Comparable, Attribute.comparitor,
        Attribute.numberComparitor, intComparitor_snd, Attribute.boolComparitor,
        Attribute.stringComparitor, Attribute.getBigFloat, Attribute.getTypedUnit,
        nullComparitor, Unit.Comparable, specComparabilityGate, mkFloat,
        mkInt, mkString, mkBool, UnitIndex_empty, apply_ite, hua]
  · rcases hu with rfl | hs
    · simp [Attribute.Compare, Attribute.Comparable, Attribute.comparitor,
        Attribute.numberComparitor, intComparitor_snd, Attribute.boolComparitor,
        Attribute.stringComparitor, Attribute.getBigFloat, Attribute.getTypedUnit,
        nullComparitor, Unit.Comparable, specComparabilityGate, mkFloat,
        mkInt, mkString, mkBool, UnitIndex_empty, apply_ite]
    · obtain ⟨ua, hua⟩ := Option.isSome_iff_exists.mp hs
      simp [Attribute.Compare, Attribute.Comparable, Attribute.comparitor,
        Attribute.numberComparitor, intComparitor_snd, Attribute.boolComparitor,
        Attribute.stringComparitor, Attribute.getBigFloat, Attribute.getTypedUnit,
        nullComparitor, Unit.Comparable, specComparabilityGate, mkFloat,
        mkInt, mkString, mkBool, UnitIndex_empty, apply_ite, hua]
  · rcases hu with rfl | hs <;> rcases hu2 with rfl | hs2
    · simp [Attribute.Compare, Attribute.Comparable, Attribute.comparitor,
        Attribute.numberComparitor, intComparitor_snd, Attribute.boolComparitor,
        Attribute.stringComparitor, Attribute.getBigFloat, Attribute.getTypedUnit,
        nullComparitor, Unit.Comparable, specComparabilityGate, mkFloat,
        mkInt, mkString, mkBool, UnitIndex_empty, apply_ite]
    · obtain ⟨ub, hub⟩ := Option.isSome_iff_exists.mp hs2
      simp [Attribute.Compare, Attribute.Comparable, Attribute.comparitor,
        Attribute.numberComparitor, intComparitor_snd, Attribute.boolComparitor,
        Attribute.stringComparitor, Attribute.getBigFloat, Attribute.getTypedUnit,
        nullComparitor, Unit.Comparable, specComparabilityGate, mkFloat,
        mkInt, mkString, mkBool, UnitIndex_empty, apply_ite, hub]
    · obtain ⟨ua, hua⟩ := Option.isSome_iff_exists.mp hs
      simp [Attribute.Compare, Attribute.Comparable, Attribute.comparitor,
        Attribute.numberComparitor, intComparitor_snd, Attribute.boolComparitor,
        Attribute.stringComparitor, Attribute.getBigFloat, Attribute.getTypedUnit,
        nullComparitor, Unit.Comparable, specComparabilityGate, mkFloat,
        mkInt, mkString, mkBool, UnitIndex_empty, apply_ite, hua]
    · obtain ⟨ua, hua⟩ := Option.isSome_iff_exists.mp hs
      obtain ⟨ub, hub⟩ := Option.isSome_iff_exists.mp hs2
      by_cases hbase : ua.Base = ub.Base <;>
        simp [Attribute.Compare, Attribute.Comparable, Attribute.comparitor,
          Attribute.numberComparitor, intComparitor_snd, Attribute.boolComparitor,
          Attribute.stringComparitor, Attribute.getBigFloat, Attribute.getTypedUnit,
          nullComparitor, Unit.Comparable, specComparabilityGate, mkFloat,
          mkInt, mkString, mkBool, UnitIndex_empty, apply_ite, hua, hub, hbase] <;>
        split_ifs <;> simp
  · rcases hu with rfl | hs <;> rcases hu2 with rfl | hs2
    · simp [Attribute.Compare, Attribute.Comparable, Attribute.comparitor,
        Attribute.numberComparitor, intComparitor_snd, Attribute.boolComparitor,
        Attribute.stringComparitor, Attribute.getBigFloat, Attribute.getTypedUnit,
        nullComparitor, Unit.Comparable, specComparabilityGate, mkFloat,
        mkInt, mkString, mkBool, UnitIndex_empty, apply_ite]
    · obtain ⟨ub, hub⟩ := Option.isSome_iff_exists.mp hs2
      simp [Attribute.Compare, Attribute.Comparable, Attribute.comparitor,
        Attribute.numberComparitor, intComparitor_snd, Attribute.boolComparitor,
        Attribute.stringComparitor, Attribute.getBigFloat, Attribute.getTypedUnit,
        nullComparitor, Unit.Comparable, specComparabilityGate, mkFloat,
        mkInt, mkString, mkBool, UnitIndex_empty, apply_ite, hub]
    · obtain ⟨ua, hua⟩ := Option.isSome_iff_exists.mp hs
      simp [Attribute.Compare, Attribute.Comparable, Attribute.comparitor,
        Attribute.numberComparitor, intComparitor_snd, Attribute.boolComparitor,
        Attribute.stringComparitor, Attribute.getBigFloat, Attribute.getTypedUnit,
        nullComparitor, Unit.Comparable, specComparabilityGate, mkFloat,
        mkInt, mkString, mkBool, UnitIndex_empty, apply_ite, hua]
    · obtain ⟨ua, hua⟩ := Option.isSome_iff_exists.mp hs
      obtain ⟨ub, hub⟩ := Option.isSome_iff_exists.mp hs2
      by_cases hbase : ua.Base = ub.Base <;>
        simp [Attribute.Compare, Attribute.Comparable, Attribute.comparitor,
          Attribute.numberComparitor, intComparitor_snd, Attribute.boolComparitor,
          Attribute.stringComparitor, Attribute.getBigFloat, Attribute.getTypedUnit,
          nullComparitor, Unit.Comparable, specComparabilityGate, mkFloat,
          mkInt, mkString, mkBool, UnitIndex_empty, apply_ite, hua, hub, hbase] <;>
        split_ifs <;> simp
  · rcases hu with rfl | hs
    · simp [Attribute.Compare, Attribute.Comparable, Attribute.comparitor,
        Attribute.numberComparitor, intComparitor_snd, Attribute.boolComparitor,
        Attribute.stringComparitor, Attribute.getBigFloat, Attribute.getTypedUnit,
        nullComparitor, Unit.Comparable, specComparabilityGate, mkFloat,
        mkInt, mkString, mkBool, UnitIndex_empty, apply_ite]
    · obtain ⟨ua, hua⟩ := Option.isSome_iff_exists.mp hs
      simp [Attribute.Compare, Attribute.Comparable, Attribute.comparitor,
        Attribute.numberComparitor, intComparitor_snd, Attribute.boolComparitor,
        Attribute.stringComparitor, Attribute.getBigFloat, Attribute.getTypedUnit,
        nullComparitor, Unit.Comparable, specComparabilityGate, mkFloat,
        mkInt, mkString, mkBool, UnitIndex_empty, apply_ite, hua]
  · rcases hu with rfl | hs
    · simp [Attribute.Compare, Attribute.Comparable, Attribute.comparitor,
        Attribute.numberComparitor, intComparitor_snd, Attribute.boolComparitor,
        Attribute.stringComparitor, Attribute.getBigFloat, Attribute.getTypedUnit,
        nullComparitor, Unit.Comparable, specComparabilityGate, mkFloat,
        mkInt, mkString, mkBool, UnitIndex_empty, apply_ite]
    · obtain ⟨ua, hua⟩ := Option.isSome_iff_exists.mp hs
      simp [Attribute.Compare, Attribute.Comparable, Attribute.comparitor,
        Attribute.numberComparitor, intComparitor_snd, Attribute.boolComparitor,
        Attribute.stringComparitor, Attribute.getBigFloat, Attribute.getTypedUnit,
        nullComparitor, Unit.Comparable, specComparabilityGate, mkFloat,
        mkInt, mkString, mkBool, UnitIndex_empty, apply_ite, hua]
  · rcases hu2 with rfl | hs2
    · simp [Attribute.Compare, Attribute.Comparable, Attribute.comparitor,
        Attribute.numberComparitor, intComparitor_snd, Attribute.boolComparitor,
        Attribute.stringComparitor, Attribute.getBigFloat, Attribute.getTypedUnit,
        nullComparitor, Unit.Comparable, specComparabilityGate, mkFloat,
        mkInt, mkString, mkBool, UnitIndex_empty, apply_ite]
    · obtain ⟨ub, hub⟩ := Option.isSome_iff_exists.mp hs2
      simp [Attribute.Compare, Attribute.Comparable, Attribute.comparitor,
        Attribute.numberComparitor, intComparitor_snd, Attribute.boolComparitor,
        Attribute.stringComparitor, Attribute.getBigFloat, Attribute.getTypedUnit,
        nullComparitor, Unit.Comparable, specComparabilityGate, mkFloat,
        mkInt, mkString, mkBool, UnitIndex_empty, apply_ite, hub]
  · rcases hu2 with rfl | hs2
    · simp [Attribute.Compare, Attribute.Comparable, Attribute.comparitor,
        Attribute.numberComparitor, intComparitor_snd, Attribute.boolComparitor,
        Attribute.stringComparitor, Attribute.getBigFloat, Attribute.getTypedUnit,
        nullComparitor, Unit.Comparable, specComparabilityGate, mkFloat,
        mkInt, mkString, mkBool, UnitIndex_empty, apply_ite]
    · obtain ⟨ub, hub⟩ := Option.isSome_iff_exists.mp hs2
      simp [Attribute.Compare, Attribute.Comparable, Attribute.comparitor,
        Attribute.numberComparitor, intComparitor_snd, Attribute.boolComparitor,
        Attribute.stringComparitor, Attribute.getBigFloat, Attribute.getTypedUnit,
        nullComparitor, Unit.Comparable, specComparabilityGate, mkFloat,
        mkInt, mkString, mkBool, UnitIndex_empty, apply_ite, hub]
  · simp [Attribute.Compare, Attribute.Comparable, Attribute.comparitor,
        Attribute.numberComparitor, intComparitor_snd, Attribute.boolComparitor,
        Attribute.stringComparitor, Attribute.getBigFloat, Attribute.getTypedUnit,
        nullComparitor, Unit.Comparable, specComparabilityGate, mkFloat,
        mkInt, mkString, mkBool, UnitIndex_empty, apply_ite]
  · simp [Attribute.Compare, Attribute.Comparable, Attribute.comparitor,
        Attribute.numberComparitor, intComparitor_snd, Attribute.boolComparitor,
        Attribute.stringComparitor, Attribute.getBigFloat, Attribute.getTypedUnit,
        nullComparitor, Unit.Comparable, specComparabilityGate, mkFloat,
        mkInt, mkString, mkBool, UnitIndex_empty, apply_ite]
  · rcases hu2 with rfl | hs2
    · simp [Attribute.Compare, Attribute.Comparable, Attribute.comparitor,
        Attribute.numberComparitor, intComparitor_snd, Attribute.boolComparitor,
        Attribute.stringComparitor, Attribute.getBigFloat, Attribute.getTypedUnit,
        nullComparitor, Unit.Comparable, specComparabilityGate, mkFloat,
        mkInt, mkString, mkBool, UnitIndex_empty, apply_ite]
    · obtain ⟨ub, hub⟩ := Option.isSome_iff_exists.mp hs2
      simp [Attribute.Compare, Attribute.Comparable, Attribute.comparitor,
        Attribute.numberComparitor, intComparitor_snd, Attribute.boolComparitor,
        Attribute.stringComparitor, Attribute.getBigFloat, Attribute.getTypedUnit,
        nullComparitor, Unit.Comparable, specComparabilityGate, mkFloat,
        mkInt, mkString, mkBool, UnitIndex_empty, apply_ite, hub]
  · rcases hu2 with rfl | hs2
    · simp [Attribute.Compare, Attribute.Comparable, Attribute.comparitor,
        Attribute.numberComparitor, intComparitor_snd, Attribute.boolComparitor,
        Attribute.stringComparitor, Attribute.getBigFloat, Attribute.getTypedUnit,
        nullComparitor, Unit.Comparable, specComparabilityGate, mkFloat,
        mkInt, mkString, mkBool, UnitIndex_empty, apply_ite]
    · obtain ⟨ub, hub⟩ := Option.isSome_iff_exists.mp hs2
      simp [Attribute.Compare, Attribute.Comparable, Attribute.comparitor,
        Attribute.numberComparitor, intComparitor_snd, Attribute.boolComparitor,
        Attribute.stringComparitor, Attribute.getBigFloat, Attribute.getTypedUnit,
        nullComparitor, Unit.Comparable, specComparabilityGate, mkFloat,
        mkInt, mkString, mkBool, UnitIndex_empty, apply_ite, hub]
  · simp [Attribute.Compare, Attribute.Comparable, Attribute.comparitor,
        Attribute.numberComparitor, intComparitor_snd, Attribute.boolComparitor,
        Attribute.stringComparitor, Attribute.getBigFloat, Attribute.getTypedUnit,
        nullComparitor, Unit.Comparable, specComparabilityGate, mkFloat,
        mkInt, mkString, mkBool, UnitIndex_empty, apply_ite]
  · simp [Attribute.Compare, Attribute.Comparable, Attribute.comparitor,
        Attribute.numberComparitor, intComparitor_snd, Attribute.boolComparitor,
        Attribute.stringComparitor, Attribute.getBigFloat, Attribute.getTypedUnit,
        nullComparitor, Unit.Comparable, specComparabilityGate, mkFloat,
        mkInt, mkString, mkBool, UnitIndex_empty, apply_ite]

/-- The pure-integer comparitor reverses its ordering when the operands
swap. -/
lemma intComparitor_swap (a b : Attribute) :
    (a.intComparitor b).1 = -((b.intComparitor a).1) := by
  unfold Attribute.intComparitor
  dsimp only
  rcases lt_trichotomy a.getInt b.getInt with h | h | h
  · rw [if_neg h.ne, if_pos h, if_neg (Ne.symm h.ne), if_neg (lt_asymm h)]
  · simp [h]
  · rw [if_neg (Ne.symm h.ne), if_neg (lt_asymm h), if_neg h.ne, if_pos h]
    simp

/-- The boolean comparitor always reports comparable. -/
lemma boolComparitor_snd (a b : Attribute) : (a.boolComparitor b).2 = true := by
  unfold Attribute.boolComparitor
  split_ifs <;> rfl

/-- The boolean comparitor's 0-vs-1 equality marker is the same in both
directions. -/
lemma boolComparitor_symm (a b : Attribute) :
    (a.boolComparitor b).1 = (b.boolComparitor a).1 := by
  unfold Attribute.boolComparitor
  by_cases h : a.Bool.getD false = b.Bool.getD false
  · rw [if_pos h, if_pos h.symm]
  · rw [if_neg h, if_neg (Ne.symm h)]

/-- The number comparitor is antisymmetric in value and symmetric in
its comparable flag, whatever the payloads and units are. -/
lemma numberComparitor_swap (a b : Attribute) :
    (a.numberComparitor b).1 = -((b.numberComparitor a).1) ∧
      (a.numberComparitor b).2 = (b.numberComparitor a).2 := by
  unfold Attribute.numberComparitor
  by_cases hab : a.Int.isSome ∧ b.Int.isSome
  · have hba : b.Int.isSome ∧ a.Int.isSome := ⟨hab.2, hab.1⟩
    rw [if_pos hab, if_pos hba]
    exact ⟨intComparitor_swap a b, by rw [intComparitor_snd, intComparitor_snd]⟩
  · have hba : ¬(b.Int.isSome ∧ a.Int.isSome) := fun h => hab ⟨h.2, h.1⟩
    rw [if_neg hab, if_neg hba]
    cases hA : a.getBigFloat <;> cases hB : b.getBigFloat <;> simp
    exact ratCmp_swap _ _

/-- For two payload-wise numeric attributes (Bool and String absent on
both sides) Compare is antisymmetric in value and symmetric in flag,
whatever the units. -/
lemma c5core_numeric (a b : Attribute) (haB : a.Bool = none) (haS : a.String = none)
    (hbB : b.Bool = none) (hbS : b.String = none)
    (haN : a.Int.isSome ∨ a.Float.isSome) (hbN : b.Int.isSome ∨ b.Float.isSome) :
    (a.Compare b).2 = (b.Compare a).2 ∧ (a.Compare b).1 = -((b.Compare a).1) := by
  have hcs : a.Comparable b = b.Comparable a := by
    unfold Attribute.Comparable
    cases hA : a.getTypedUnit <;> cases hB : b.getTypedUnit <;>
      simp [haS, haB, hbS, hbB, Unit.Comparable, eq_comm]
  obtain ⟨hv, hf⟩ := numberComparitor_swap a b
  have d1 : a.comparitor b = a.numberComparitor b := by
    unfold Attribute.comparitor
    simp [haB, haS, haN]
  have d2 : b.comparitor a = b.numberComparitor a := by
    unfold Attribute.comparitor
    simp [hbB, hbS, hbN]
  unfold Attribute.Compare
  by_cases hc : a.Comparable b = true
  · rw [if_pos hc, if_pos (by rw [← hcs]; exact hc), d1, d2]
    exact ⟨hf, hv⟩
  · rw [if_neg hc, if_neg (by rw [← hcs]; exact hc)]
    exact ⟨rfl, by simp⟩

/-- A unit-free String attribute compared against anything without a
String payload is not comparable. -/
lemma compare_not_string (a b : Attribute) (haS : a.String.isSome = true) (haU : a.Unit = "")
    (hbS : b.String = none) : a.Compare b = (0, false) := by
  have hA : a.getTypedUnit = none := by
    unfold Attribute.getTypedUnit
    rw [haU]
    rfl
  have hcf : a.Comparable b = false := by
    unfold Attribute.Comparable
    rw [hA]
    cases hB : b.getTypedUnit <;> simp [haS, hbS]
  unfold Attribute.Compare
  simp [hcf]

/-- A unit-free Bool attribute compared against anything without a Bool
payload is not comparable. -/
lemma compare_not_bool (a b : Attribute) (haB : a.Bool.isSome = true) (haS : a.String = none)
    (haU : a.Unit = "") (hbB : b.Bool = none) : a.Compare b = (0, false) := by
  have hA : a.getTypedUnit = none := by
    unfold Attribute.getTypedUnit
    rw [haU]
    rfl
  have hcf : a.Comparable b = false := by
    unfold Attribute.Comparable
    rw [hA]
    cases hB : b.getTypedUnit <;> simp [haS, haB, hbB]
  unfold Attribute.Compare
  simp [hcf]

/-- A Bool-free, String-free attribute compared against a payload-wise
non-numeric attribute yields not-comparable (through the number
comparitor's nil big-float check when the gate happens to pass). -/
lemma compare_to_nonnumber (a b : Attribute) (haB : a.Bool = none) (haS : a.String = none)
    (hbI : b.Int = none) (hbF : b.Float = none) : a.Compare b = (0, false) := by
  have hbf : b.getBigFloat = none := by
    unfold Attribute.getBigFloat
    simp [hbI, hbF]
  unfold Attribute.Compare
  split
  · unfold Attribute.comparitor
    simp only [haB, haS, Option.isSome_none, Bool.false_eq_true, if_false]
    split
    · unfold Attribute.numberComparitor
      rw [if_neg (by simp [hbI])]
      cases hA : a.getBigFloat <;> simp [hbf]
    · rfl
  · rfl

/-- Combining two not-comparable verdicts into the C5 conclusion. -/
lemma c5_of_both_false {a b : Attribute} (hx : a.Compare b = (0, false))
    (hy : b.Compare a = (0, false)) :
    (a.Compare b).2 = (b.Compare a).2 ∧
      ((a.Compare b).2 = true →
        (if a.Bool.isSome then (a.Compare b).1 = (b.Compare a).1
          else (a.Compare b).1 = -((b.Compare a).1))) := by
  rw [hx, hy]
  exact ⟨rfl, by simp⟩

/-- C5: for validated attributes the comparable flag returned by
Compare is symmetric, and where both are comparable the orderings are
consistently reversed — negated for numeric and string values, and the
same 0-vs-1 equality marker in both directions for booleans. -/
theorem c5_compare_symmetry (a b : Attribute) (ha : a.Validate = none) (hb : b.Validate = none) :
    (a.Compare b).2 = (b.Compare a).2 ∧
      ((a.Compare b).2 = true →
        (if a.Bool.isSome then (a.Compare b).1 = (b.Compare a).1
          else (a.Compare b).1 = -((b.Compare a).1))) := by
  rcases validated_repr a ha with ⟨q, u, rfl, hu⟩ | ⟨i, u, rfl, hu⟩ | ⟨s, rfl⟩ | ⟨x, rfl⟩ <;>
    rcases validated_repr b hb with ⟨q2, u2, rfl, hu2⟩ | ⟨i2, u2, rfl, hu2⟩ | ⟨s2, rfl⟩ |
      ⟨x2, rfl⟩
  · obtain ⟨hf2, hv⟩ :=
      c5core_numeric (mkFloat q u) (mkFloat q2 u2) rfl rfl rfl rfl (Or.inr rfl) (Or.inr rfl)
    refine ⟨hf2, fun _ => ?_⟩
    rw [if_neg (by simp [mkFloat])]
    exact hv
  · obtain ⟨hf2, hv⟩ :=
      c5core_numeric (mkFloat q u) (mkInt i2 u2) rfl rfl rfl rfl (Or.inr rfl) (Or.inl rfl)
    refine ⟨hf2, fun _ => ?_⟩
    rw [if_neg (by simp [mkFloat])]
    exact hv
  · exact c5_of_both_false (compare_to_nonnumber _ _ rfl rfl rfl rfl) (compare_not_string _ _ rfl rfl rfl)
  · exact c5_of_both_false (compare_to_nonnumber _ _ rfl rfl rfl rfl) (compare_not_bool _ _ rfl rfl rfl rfl)
  · obtain ⟨hf2, hv⟩ :=
      c5core_numeric (mkInt i u) (mkFloat q2 u2) rfl rfl rfl rfl (Or.inl rfl) (Or.inr rfl)
    refine ⟨hf2, fun _ => ?_⟩
    rw [if_neg (by simp [mkInt])]
    exact hv
  · obtain ⟨hf2, hv⟩ :=
      c5core_numeric (mkInt i u) (mkInt i2 u2) rfl rfl rfl rfl (Or.inl rfl) (Or.inl rfl)
    refine ⟨hf2, fun _ => ?_⟩
    rw [if_neg (by simp [mkInt])]
    exact hv
  · exact c5_of_both_false (compare_to_nonnumber _ _ rfl rfl rfl rfl) (compare_not_string _ _ rfl rfl rfl)
  · exact c5_of_both_false (compare_to_nonnumber _ _ rfl rfl rfl rfl) (compare_not_bool _ _ rfl rfl rfl rfl)
  · exact c5_of_both_false (compare_not_string _ _ rfl rfl rfl) (compare_to_nonnumber _ _ rfl rfl rfl rfl)
  · exact c5_of_both_false (compare_not_string _ _ rfl rfl rfl) (compare_to_nonnumber _ _ rfl rfl rfl rfl)
  · refine ⟨rfl, fun _ => ?_⟩
    rw [if_neg (by simp [mkString])]
    have e1 : (mkString s).Compare (mkString s2) = (strCmp s s2, true) := rfl
    have e2 : (mkString s2).Compare (mkString s) = (strCmp s2 s, true) := rfl
    rw [e1, e2]
    exact strCmp_swap s s2
  · exact c5_of_both_false (compare_not_string _ _ rfl rfl rfl) (compare_not_bool _ _ rfl rfl rfl rfl)
  · exact c5_of_both_false (compare_not_bool _ _ rfl rfl rfl rfl) (compare_to_nonnumber _ _ rfl rfl rfl rfl)
  · exact c5_of_both_false (compare_not_bool _ _ rfl rfl rfl rfl) (compare_to_nonnumber _ _ rfl rfl rfl rfl)
  · exact c5_of_both_false (compare_not_bool _ _ rfl rfl rfl rfl) (compare_not_string _ _ rfl rfl rfl)
  · have e1 : (mkBool x).Compare (mkBool x2) = (mkBool x).boolComparitor (mkBool x2) := rfl
    have e2 : (mkBool x2).Compare (mkBool x) = (mkBool x2).boolComparitor (mkBool x) := rfl
    rw [e1, e2]
    refine ⟨by rw [boolComparitor_snd, boolComparitor_snd], fun _ => ?_⟩
    rw [if_pos (by simp [mkBool])]
    exact boolComparitor_symm _ _

/-- Witness for C5 at a concrete comparable pair. -/
theorem c5_witness :
    ((mkInt 3 "").Compare (mkInt 5 "")).2 = ((mkInt 5 "").Compare (mkInt 3 "")).2 ∧
      (((mkInt 3 "").Compare (mkInt 5 "")).2 = true →
        (if (mkInt 3 "").Bool.isSome then
          ((mkInt 3 "").Compare (mkInt 5 "")).1 = ((mkInt 5 "").Compare (mkInt 3 "")).1
          else ((mkInt 3 "").Compare (mkInt 5 "")).1 = -(((mkInt 5 "").Compare (mkInt 3 "")).1))) :=
  c5_compare_symmetry (mkInt 3 "") (mkInt 5 "") (by decide) (by decide)

/-- C6: for validated attributes, Compare reports not-comparable exactly
when the comparability gate rejects the pair (expressed as equality with
the gate's verdict: one resolvable unit only, differing base dimensions,
or unit-free kind mismatch all reject; everything else passes). -/
theorem c6_comparable_iff_gate (a b : Attribute) (ha : a.Validate = none)
    (hb : b.Validate = none) :
    (a.Compare b).2 = specComparabilityGate a b :=
  compare_flag a b ha hb

/-- Witness for C6 at the spec's cross-dimension example. -/
theorem c6_witness :
    ((mkInt 5 "MHz").Compare (mkInt 5 "W")).2 = specComparabilityGate (mkInt 5 "MHz") (mkInt 5 "W") :=
  c6_comparable_iff_gate (mkInt 5 "MHz") (mkInt 5 "W") (by decide) (by decide)

/-- C7: when two validated, comparable attributes both carry Int
payloads, Compare is exactly the -1/0/+1 sign comparison of their
base-unit 64-bit integers as computed by `getInt` (multiply by the
multiplier with 64-bit wraparound, truncated-divide for inverse
multipliers, no scaling without a unit) — no floating-point conversion
occurs, the result being produced by the integer comparitor alone. -/
theorem c7_int_comparison (a b : Attribute) (ha : a.Validate = none) (hb : b.Validate = none)
    (hai : a.Int.isSome) (hbi : b.Int.isSome) (hc : (a.Compare b).2 = true) :
    a.Compare b =
      (if a.getInt = b.getInt then 0 else if a.getInt < b.getInt then -1 else 1, true) := by
  have hcc : a.Comparable b = true := by
    by_contra h
    unfold Attribute.Compare at hc
    rw [if_neg h] at hc
    simp at hc
  have haBS : a.Bool = none ∧ a.String = none := by
    rcases validated_cases a ha with ⟨q, h1, h2, h3, h4, -⟩ | ⟨i, h1, h2, h3, h4, -⟩ |
      ⟨s, h1, h2, h3, h4, -⟩ | ⟨x, h1, h2, h3, h4, -⟩ <;> simp_all
  have e0 : a.comparitor b = a.numberComparitor b := by
    unfold Attribute.comparitor
    simp [haBS.1, haBS.2, hai]
  have e1 : a.numberComparitor b = a.intComparitor b := by
    unfold Attribute.numberComparitor
    rw [if_pos ⟨hai, hbi⟩]
  unfold Attribute.Compare
  rw [if_pos hcc, e0, e1]
  unfold Attribute.intComparitor
  dsimp only
  split_ifs <;> rfl

/-- Witness for C7 at the spec's unit-aware equivalence example. -/
theorem c7_witness :
    (mkInt 1 "GiB").Compare (mkInt 1024 "MiB") =
      (if (mkInt 1 "GiB").getInt = (mkInt 1024 "MiB").getInt then 0
        else if (mkInt 1 "GiB").getInt < (mkInt 1024 "MiB").getInt then -1 else 1, true) :=
  c7_int_comparison (mkInt 1 "GiB") (mkInt 1024 "MiB") (by decide) (by decide) (by decide)
    (by decide) (by decide)

/-- Appending a nonempty tail keeps that tail's last element. -/
lemma getLast?_append_right {α : Type} (l₁ : List α) {l₂ : List α} (h : l₂ ≠ []) :
    (l₁ ++ l₂).getLast? = l₂.getLast? := by
  induction l₁ with
  | nil => rfl
  | cons a t ih =>
    rw [List.cons_append, getLast?_cons_ne_nil a (t ++ l₂) (by simp [h]), ih]

/-- Of two suffixes of the same list, the shorter is a suffix of the
longer. -/
lemma suffix_of_suffix_length_le {α : Type} {l₁ l₂ l₃ : List α}
    (h1 : l₁ <:+ l₃) (h2 : l₂ <:+ l₃) (hl : l₁.length ≤ l₂.length) : l₁ <:+ l₂ := by
  obtain ⟨t1, rfl⟩ := h1
  obtain ⟨t2, h2e⟩ := h2
  have hlen : t2.length ≤ t1.length := by
    have := congrArg List.length h2e
    simp [List.length_append] at this
    omega
  refine ⟨t1.drop t2.length, ?_⟩
  have hstep : l₂ = (t2 ++ l₂).drop t2.length := (List.drop_left t2 l₂).symm
  rw [hstep, h2e, List.drop_append_eq_append_drop, Nat.sub_eq_zero_of_le hlen,
    List.drop_zero]

/-- dropWhile is the identity when the head already fails the
predicate. -/
lemma dropWhile_eq_self_of_head {p : Char → Bool} {l : List Char}
    (h : ∀ c, l.head? = some c → p c = false) : l.dropWhile p = l := by
  cases l with
  | nil => rfl
  | cons a t =>
    rw [List.dropWhile_cons, h a rfl]
    simp

/-- A nonempty takeWhile starts with the list's head. -/
lemma takeWhile_head {p : Char → Bool} {l : List Char} (h : l.takeWhile p ≠ []) :
    (l.takeWhile p).head? = l.head? := by
  cases l with
  | nil => rfl
  | cons a t =>
    cases hp : p a
    · rw [List.takeWhile_cons] at h
      simp [hp] at h
    · rw [List.takeWhile_cons]
      simp [hp]

/-- The digit run a sign strip leaves behind is a suffix of the
original characters. -/
lemma splitSign_suffix (l : List Char) : (splitSign l).2 <:+ l := by
  unfold splitSign
  split
  · exact ⟨['-'], rfl⟩
  · exact ⟨['+'], rfl⟩
  · exact List.suffix_rfl

/-- Sign stripping keeps the last character when anything remains. -/
lemma splitSign_last {l : List Char} (h : (splitSign l).2 ≠ []) :
    l.getLast? = (splitSign l).2.getLast? := by
  obtain ⟨t, ht⟩ := splitSign_suffix l
  conv_lhs => rw [← ht]
  exact getLast?_append_right t h

/-- trimSpace is the identity on a string whose two end characters are
not whitespace. -/
lemma goTrimSpace_eq (s : GoStr)
    (h1 : ∀ c, s.data.head? = some c → Char.isWhitespace c = false)
    (h2 : ∀ c, s.data.getLast? = some c → Char.isWhitespace c = false) :
    goTrimSpace s = s := by
  unfold goTrimSpace
  rw [dropWhile_eq_self_of_head h1]
  rw [dropWhile_eq_self_of_head (fun c hc => h2 c (by rwa [← List.head?_reverse]))]
  rw [List.reverse_reverse]

/-- The head of a string the integer parser accepts is a sign or a
digit. -/
lemma parseInt_head {l : List Char} {v : Int} (h : goParseIntChars l = some v) :
    ∃ c, l.head? = some c ∧ (c = '-' ∨ c = '+' ∨ goIsDigit c = true) := by
  unfold goParseIntChars splitSign at h
  split at h
  · exact ⟨'-', rfl, Or.inl rfl⟩
  · exact ⟨'+', rfl, Or.inr (Or.inl rfl)⟩
  · next =>
    obtain ⟨hne, hall⟩ := parseIntCore_shape h
    cases l with
    | nil => exact absurd rfl hne
    | cons c t =>
      exact ⟨c, rfl, Or.inr (Or.inr ((List.all_eq_true.mp hall) c (List.mem_cons_self c t)))⟩

/-- The head of a nonempty list exists. -/
lemma head?_some_of_ne_nil {α : Type} {l : List α} (h : l ≠ []) : ∃ c, l.head? = some c := by
  cases l with
  | nil => exact absurd rfl h
  | cons a t => exact ⟨a, rfl⟩

/-- The head reported by `head?` is a member. -/
lemma head?_mem {α : Type} {l : List α} {c : α} (h : l.head? = some c) : c ∈ l := by
  cases l with
  | nil => exact Option.noConfusion h
  | cons a t =>
    rw [List.head?_cons, Option.some.injEq] at h
    rw [← h]
    exact List.mem_cons_self a t

/-- A mantissa the float parser accepts ends in a digit or in the
decimal point. -/
lemma parseMantissa_last {l : List Char} {m : Rat} (h : parseMantissa l = some m) :
    ∃ c, l.getLast? = some c ∧ (goIsDigit c = true ∨ c = '.') := by
  have hsplit := List.takeWhile_append_dropWhile goIsDigit l
  unfold parseMantissa at h
  cases hdrop : l.dropWhile goIsDigit with
  | nil =>
    rw [hdrop] at h
    dsimp only at h
    rw [hdrop, List.append_nil] at hsplit
    split at h
    · exact Option.noConfusion h
    · next hip =>
      have hlne : l ≠ [] := by
        intro he
        rw [he] at hip
        exact hip rfl
      obtain ⟨c, hc⟩ := Option.isSome_iff_exists.mp (List.getLast?_isSome.mpr hlne)
      have hmem : c ∈ l.takeWhile goIsDigit := by
        rw [hsplit]
        exact mem_of_getLast?_eq hc
      exact ⟨c, hc, Or.inl (List.mem_takeWhile_imp hmem)⟩
  | cons d fp =>
    rw [hdrop] at h
    dsimp only at h
    split at h
    · next hd =>
      split at h
      · next hcond =>
        obtain ⟨hall, -⟩ := hcond
        subst hd
        cases fp with
        | nil =>
          refine ⟨'.', ?_, Or.inr rfl⟩
          rw [← hsplit, hdrop, getLast?_append_right _ (by simp)]
          rfl
        | cons e fp3 =>
          obtain ⟨c, hc⟩ :=
            Option.isSome_iff_exists.mp (List.getLast?_isSome.mpr (by simp : e :: fp3 ≠ []))
          refine ⟨c, ?_, Or.inl ?_⟩
          · rw [← hsplit, hdrop, getLast?_append_right _ (by simp),
              getLast?_cons_ne_nil _ _ (by simp)]
            exact hc
          · exact (List.all_eq_true.mp hall) c (mem_of_getLast?_eq hc)
      · exact Option.noConfusion h
    · exact Option.noConfusion h

/-- A mantissa the float parser accepts starts with a digit or with the
decimal point. -/
lemma parseMantissa_head {l : List Char} {m : Rat} (h : parseMantissa l = some m) :
    ∃ c, l.head? = some c ∧ (goIsDigit c = true ∨ c = '.') := by
  have hsplit := List.takeWhile_append_dropWhile goIsDigit l
  unfold parseMantissa at h
  cases hdrop : l.dropWhile goIsDigit with
  | nil =>
    rw [hdrop] at h
    dsimp only at h
    split at h
    · exact Option.noConfusion h
    · next hip =>
      obtain ⟨c, hc⟩ := head?_some_of_ne_nil hip
      refine ⟨c, ?_, Or.inl (List.mem_takeWhile_imp (head?_mem hc))⟩
      rw [← takeWhile_head hip]
      exact hc
  | cons d fp =>
    rw [hdrop] at h
    dsimp only at h
    split at h
    · next hd =>
      split at h
      · next hcond =>
        subst hd
        by_cases hip : l.takeWhile goIsDigit = []
        · refine ⟨'.', ?_, Or.inr rfl⟩
          rw [← hsplit, hdrop, hip]
          rfl
        · obtain ⟨c, hc⟩ := head?_some_of_ne_nil hip
          refine ⟨c, ?_, Or.inl (List.mem_takeWhile_imp (head?_mem hc))⟩
          rw [← takeWhile_head hip]
          exact hc
      · exact Option.noConfusion h
    · exact Option.noConfusion h

/-- The body of a float literal ends in a digit or in the decimal
point (its exponent digits, when present, end it with a digit). -/
lemma parseFloatBody_last {l : List Char} {m : Rat} (h : parseFloatBody l = some m) :
    ∃ c, l.getLast? = some c ∧ (goIsDigit c = true ∨ c = '.') := by
  have hsplit := List.takeWhile_append_dropWhile (fun c => !(c == 'e' || c == 'E')) l
  unfold parseFloatBody at h
  cases hdrop : l.dropWhile (fun c => !(c == 'e' || c == 'E')) with
  | nil =>
    rw [hdrop] at h
    dsimp only at h
    rw [hdrop, List.append_nil] at hsplit
    obtain ⟨c, hc, hcd⟩ := parseMantissa_last h
    refine ⟨c, ?_, hcd⟩
    rw [← hsplit]
    exact hc
  | cons e expPart =>
    rw [hdrop] at h
    dsimp only at h
    split at h
    · next hcond =>
      obtain ⟨hne, hall⟩ := hcond
      have hexp : expPart ≠ [] := by
        intro he
        rw [he] at hne
        exact hne rfl
      obtain ⟨c, hc⟩ :=
        Option.isSome_iff_exists.mp (List.getLast?_isSome.mpr hne)
      refine ⟨c, ?_, Or.inl ((List.all_eq_true.mp hall) c (mem_of_getLast?_eq hc))⟩
      rw [← hsplit, hdrop, getLast?_append_right _ (by simp),
        getLast?_cons_ne_nil _ _ hexp, splitSign_last hne]
      exact hc
    · exact Option.noConfusion h

/-- The body of a float literal starts with a digit or with the decimal
point. -/
lemma parseFloatBody_head {l : List Char} {m : Rat} (h : parseFloatBody l = some m) :
    ∃ c, l.head? = some c ∧ (goIsDigit c = true ∨ c = '.') := by
  have hsplit := List.takeWhile_append_dropWhile (fun c => !(c == 'e' || c == 'E')) l
  unfold parseFloatBody at h
  cases hdrop : l.dropWhile (fun c => !(c == 'e' || c == 'E')) with
  | nil =>
    rw [hdrop] at h
    dsimp only at h
    rw [hdrop, List.append_nil] at hsplit
    obtain ⟨c, hc, hcd⟩ := parseMantissa_head h
    refine ⟨c, ?_, hcd⟩
    rw [← hsplit]
    exact hc
  | cons e expPart =>
    rw [hdrop] at h
    dsimp only at h
    split at h
    · next hcond =>
      cases hm : parseMantissa (l.takeWhile (fun c => !(c == 'e' || c == 'E'))) with
      | none =>
        rw [hm] at h
        exact Option.noConfusion h
      | some m2 =>
        obtain ⟨c, hch, hcd⟩ := parseMantissa_head hm
        have hmne : l.takeWhile (fun c => !(c == 'e' || c == 'E')) ≠ [] := by
          intro hh
          rw [hh] at hch
          exact Option.noConfusion hch
        refine ⟨c, ?_, hcd⟩
        rw [← takeWhile_head hmne]
        exact hch
    · exact Option.noConfusion h

/-- A string the float parser accepts ends in a digit or in the decimal
point. -/
lemma parseFloat_last {l : List Char} {q : Rat} (h : goParseFloatChars l = some q) :
    ∃ c, l.getLast? = some c ∧ (goIsDigit c = true ∨ c = '.') := by
  unfold goParseFloatChars at h
  cases hb : parseFloatBody (splitSign l).2 with
  | none =>
    rw [hb] at h
    exact Option.noConfusion h
  | some m =>
    obtain ⟨c, hc, hcd⟩ := parseFloatBody_last hb
    have hne : (splitSign l).2 ≠ [] := by
      intro hh
      rw [hh] at hc
      exact Option.noConfusion hc
    refine ⟨c, ?_, hcd⟩
    rw [splitSign_last hne]
    exact hc

/-- Sign stripping leaves the whole list when its head is not a sign
character. -/
lemma splitSign_other {c : Char} (t : List Char) (h1 : ¬(c = '-')) (h2 : ¬(c = '+')) :
    splitSign (c :: t) = (false, c :: t) := by
  simp [splitSign, h1, h2]

/-- A string the float parser accepts starts with a sign, a digit or
the decimal point. -/
lemma parseFloat_head {l : List Char} {q : Rat} (h : goParseFloatChars l = some q) :
    ∃ c, l.head? = some c ∧ (c = '-' ∨ c = '+' ∨ goIsDigit c = true ∨ c = '.') := by
  cases l with
  | nil => exact Option.noConfusion h
  | cons c t =>
    by_cases h1 : c = '-'
    · exact ⟨c, rfl, Or.inl h1⟩
    · by_cases h2 : c = '+'
      · exact ⟨c, rfl, Or.inr (Or.inl h2)⟩
      · unfold goParseFloatChars at h
        rw [splitSign_other t h1 h2] at h
        cases hb : parseFloatBody (c :: t) with
        | none =>
          rw [hb] at h
          exact Option.noConfusion h
        | some m =>
          obtain ⟨d, hch, hcd⟩ := parseFloatBody_head hb
          exact ⟨d, hch, Or.inr (Or.inr hcd)⟩

/-- find? returns a given match when the list is sorted by descending
length, no longer entry matches, and equal-length matches coincide. -/
lemma find?_first {α : Type} (p : α → Bool) (len : α → Nat) :
    ∀ (L : List α), List.Pairwise (fun x y => len y ≤ len x) L →
      ∀ u, u ∈ L → p u = true →
        (∀ w, w ∈ L → len u ≤ len w → p w = true → w = u) → L.find? p = some u := by
  intro L
  induction L with
  | nil =>
    intro _ u hu
    exact absurd hu (List.not_mem_nil u)
  | cons w T ih =>
    intro hsort u hu hpu huniq
    cases hw : p w with
    | true =>
      rw [List.find?_cons_of_pos _ hw]
      have hlen : len u ≤ len w := by
        rcases List.mem_cons.mp hu with rfl | hmem
        · exact le_refl _
        · exact (List.pairwise_cons.mp hsort).1 u hmem
      rw [huniq w (List.mem_cons_self w T) hlen hw]
    | false =>
      rw [List.find?_cons_of_neg _ (by simp [hw])]
      have hut : u ∈ T := by
        rcases List.mem_cons.mp hu with rfl | hmem
        · rw [hw] at hpu
          exact absurd hpu (by simp)
        · exact hmem
      exact ih (List.pairwise_cons.mp hsort).2 u hut hpu
        (fun w2 hw2 hl2 hp2 => huniq w2 (List.mem_cons_of_mem w hw2) hl2 hp2)

/-- No character of a registry unit name is a digit or the decimal
point. -/
lemma units_chars : ∀ w ∈ lengthSortedUnits, ∀ c ∈ w.data, ¬(goIsDigit c = true ∨ c = '.') := by
  decide

/-- Every registry unit name is nonempty and ends in a letter. -/
lemma units_nonempty_alpha :
    ∀ w ∈ lengthSortedUnits, w.data ≠ [] ∧ (w.data.getLast?.map Char.isAlpha).getD false = true := by
  decide

/-- The precomputed suffix-matching order is longest-first. -/
lemma units_sorted :
    List.Pairwise (fun x y : GoStr => y.data.length ≤ x.data.length) lengthSortedUnits := by
  decide

/-- Strings with the same characters are equal. -/
lemma GoStr_eq_of_data {s t : GoStr} (h : s.data = t.data) : s = t := by
  cases s
  cases t
  exact congrArg String.mk h

/-- A name the registry resolves occurs in the suffix-matching order. -/
lemma unitIndex_name_mem {u : GoStr} (hu : (UnitIndex u).isSome) : u ∈ lengthSortedUnits := by
  obtain ⟨w, hw⟩ := Option.isSome_iff_exists.mp hu
  unfold UnitIndex at hw
  have hmem := List.mem_of_find?_eq_some hw
  have hp := List.find?_some hw
  have hname : w.Name = u := of_decide_eq_true hp
  rw [← hname]
  exact (by decide : ∀ x ∈ unitsTable, x.Name ∈ lengthSortedUnits) w hmem

/-- Suffix matching on a numeric string followed by a registry unit
finds exactly that unit: longer names would have to reach into the
numeric part, whose last character no unit name contains. -/
lemma find?_suffix_unit (u : GoStr) (hmem : u ∈ lengthSortedUnits) (N : GoStr)
    {c0 : Char} (hlastc : N.data.getLast? = some c0) (hc0 : goIsDigit c0 = true ∨ c0 = '.') :
    lengthSortedUnits.find? (fun w => decide (w.data <:+ (N ++ u).data)) = some u := by
  apply find?_first (fun w => decide (w.data <:+ (N ++ u).data)) (fun s => s.data.length)
    lengthSortedUnits units_sorted u hmem
  · exact decide_eq_true (List.suffix_append N.data u.data)
  · intro w hw hlen hpw
    have hsw : w.data <:+ N.data ++ u.data := of_decide_eq_true hpw
    have hsu : u.data <:+ N.data ++ u.data := List.suffix_append _ _
    obtain ⟨t, ht⟩ := suffix_of_suffix_length_le hsu hsw hlen
    cases t with
    | nil =>
      refine GoStr_eq_of_data ?_
      rw [← ht, List.nil_append]
    | cons x ts =>
      exfalso
      obtain ⟨r, hr⟩ := hsw
      rw [← ht, ← List.append_assoc] at hr
      have hval : r ++ (x :: ts) = N.data := List.append_cancel_right hr
      have hlast2 : N.data.getLast? = (x :: ts).getLast? := by
        rw [← hval]
        exact getLast?_append_right r (by simp)
      obtain ⟨c1, hc1⟩ :=
        Option.isSome_iff_exists.mp (List.getLast?_isSome.mpr (by simp : x :: ts ≠ []))
      have hceq : c0 = c1 := by
        rw [hlastc, hc1] at hlast2
        exact Option.some.inj hlast2
      have hmemw : c1 ∈ w.data := by
        rw [← ht]
        exact List.mem_append_left _ (mem_of_getLast?_eq hc1)
      exact units_chars w hw c1 hmemw (hceq ▸ hc0)

/-- A numeric string followed by a registry unit is never one of the
boolean literal aliases. -/
lemma parseBool_append_unit (N u : GoStr) (hmem : u ∈ lengthSortedUnits) :
    goParseBool (N ++ u) = none := by
  have notmem : ∀ (L : List GoStr), (∀ a ∈ L, ¬(u.data <:+ a.data)) → (N ++ u) ∉ L := by
    intro L hL hin
    exact hL _ hin (List.suffix_append N.data u.data)
  unfold goParseBool
  rw [if_neg (notmem _ (fun a ha =>
      (by decide : ∀ w ∈ lengthSortedUnits,
        ∀ a ∈ (["1", "t", "T", "TRUE", "true", "True"] : List GoStr),
          ¬(w.data <:+ a.data)) u hmem a ha)),
    if_neg (notmem _ (fun a ha =>
      (by decide : ∀ w ∈ lengthSortedUnits,
        ∀ a ∈ (["0", "f", "F", "FALSE", "false", "False"] : List GoStr),
          ¬(w.data <:+ a.data)) u hmem a ha))]

/-- A string ending in a registry unit ends in a letter. -/
lemma lastIsAlpha_append_unit (N u : GoStr) (hmem : u ∈ lengthSortedUnits) :
    (((N ++ u).data.getLast?.map Char.isAlpha).getD false) = true := by
  have h := units_nonempty_alpha u hmem
  have he : (N ++ u).data.getLast? = u.data.getLast? := getLast?_append_right N.data h.1
  rw [he]
  exact h.2

/-- Trimming the unit suffix recovers the numeric part exactly. -/
lemma trimSuffix_append (N u : GoStr) : goTrimSuffix (N ++ u) u = N := by
  unfold goTrimSuffix
  split
  · have hlen : (N ++ u).data.length - u.data.length = N.data.length := by
      have h2 : (N ++ u).data.length = N.data.length + u.data.length :=
        List.length_append N.data u.data
      omega
    rw [hlen]
    have htake : (N ++ u).data.take N.data.length = N.data := List.take_left N.data u.data
    rw [htake]
  · next hns => exact absurd (List.suffix_append N.data u.data) hns

/-- Characters a numeric literal can start or end with are not
whitespace. -/
lemma not_ws_of_numchar {c : Char}
    (h : c = '-' ∨ c = '+' ∨ goIsDigit c = true ∨ c = '.') :
    Char.isWhitespace c = false := by
  rcases h with rfl | rfl | hd | rfl
  · decide
  · decide
  · have hm : c ∈ digitChars := by simpa [goIsDigit] using hd
    fin_cases hm <;> decide
  · decide

/-- C3: for every registry unit name u and every string N accepted by
the integer parser (or, failing that, the float parser), parsing the
concatenation N ++ u yields exactly that Int (resp. Float) payload with
unit u attached. -/
theorem c3_unit_roundtrip (u : GoStr) (hu : (UnitIndex u).isSome) (N : GoStr) :
    (∀ i : Int, goParseIntChars N.data = some i → ParseAttribute (N ++ u) = mkInt i u) ∧
      (goParseIntChars N.data = none →
        ∀ q : Rat, goParseFloatChars N.data = some q →
          ParseAttribute (N ++ u) = mkFloat q u) := by
  have hmem : u ∈ lengthSortedUnits := unitIndex_name_mem hu
  have hune : u.data ≠ [] := (units_nonempty_alpha u hmem).1
  have hne : (N ++ u).data ≠ [] := by
    intro happ
    exact hune (List.append_eq_nil.mp happ).2
  have hbool := parseBool_append_unit N u hmem
  have halpha := lastIsAlpha_append_unit N u hmem
  have htrimsuf := trimSuffix_append N u
  constructor
  · intro i hi
    obtain ⟨c0, hlastc, hd⟩ := parseInt_last hi
    have hfind := find?_suffix_unit u hmem N hlastc (Or.inl hd)
    have hts : goTrimSpace N = N := by
      apply goTrimSpace_eq
      · intro c hc
        obtain ⟨c1, hc1, hdisj⟩ := parseInt_head hi
        rw [hc] at hc1
        obtain rfl := Option.some.inj hc1
        refine not_ws_of_numchar ?_
        rcases hdisj with h1 | h1 | h1
        · exact Or.inl h1
        · exact Or.inr (Or.inl h1)
        · exact Or.inr (Or.inr (Or.inl h1))
      · intro c hc
        rw [hc] at hlastc
        obtain rfl := Option.some.inj hlastc
        exact not_ws_of_numchar (Or.inr (Or.inr (Or.inl hd)))
    unfold ParseAttribute
    rw [if_neg hne, hbool]
    dsimp only
    rw [if_pos halpha, hfind]
    dsimp only
    rw [htrimsuf, hts, hi]
    rfl
  · intro hnone
    intro q hf
    obtain ⟨c0, hlastc, hd⟩ := parseFloat_last hf
    have hfind := find?_suffix_unit u hmem N hlastc hd
    have hts : goTrimSpace N = N := by
      apply goTrimSpace_eq
      · intro c hc
        obtain ⟨c1, hc1, hdisj⟩ := parseFloat_head hf
        rw [hc] at hc1
        obtain rfl := Option.some.inj hc1
        exact not_ws_of_numchar hdisj
      · intro c hc
        rw [hc] at hlastc
        obtain rfl := Option.some.inj hlastc
        rcases hd with h1 | h1
        · exact not_ws_of_numchar (Or.inr (Or.inr (Or.inl h1)))
        · exact not_ws_of_numchar (Or.inr (Or.inr (Or.inr h1)))
    unfold ParseAttribute
    rw [if_neg hne, hbool]
    dsimp only
    rw [if_pos halpha, hfind]
    dsimp only
    rw [htrimsuf, hts, hnone]
    dsimp only
    rw [hf]
    rfl

/-- Witness for C3 at one integer-bearing and one float-bearing
input. -/
theorem c3_witness :
    ParseAttribute "10GiB" = mkInt 10 "GiB" ∧ ParseAttribute "1.5MB" = mkFloat (mkRat 3 2) "MB" := by
  constructor
  · exact (c3_unit_roundtrip "GiB" (by decide) "10").1 10 (by decide)
  · exact (c3_unit_roundtrip "MB" (by decide) "1.5").2 (by decide) (mkRat 3 2) (by decide)

end structs
